import Mathlib

/-!
Verification development for the equipment-inspection CRUD API implemented in
src/server.js (Express + Supabase).  The JavaScript handlers are embedded
shallowly: JSON string fields become `Option String` (with explicit JavaScript
truthiness), the Supabase storage bucket becomes an association list from object
keys to byte lists, the local uploads directory becomes a list of relative file
paths, and the `computadores` table becomes a list of records.  External
collaborators (the Postgres engine's ILIKE matching, the storage client's
public-URL issuance, Node's base64 decoder) are modelled by explicit functions
or left as parameters, as noted on each definition.
-/

/-- JavaScript truthiness of an optional string value: `undefined`/`null` and
the empty string are falsy, every other string is truthy. -/
def jsTruthy : Option String → Bool
  | none => false
  | some s => !s.isEmpty

/-- Underlying string of an optional string value (empty when absent); used
where the source reads a property it has already checked to be truthy. -/
def jsStr (o : Option String) : String := o.getD ""

/-- Models the JavaScript expression `o || d` on strings: the default is used
when `o` is absent or empty. -/
def jsOr (o : Option String) (d : String) : String := if jsTruthy o then jsStr o else d

/-- Models JavaScript template interpolation of a possibly-undefined value,
which renders the literal text `undefined`. -/
def jsPlantilla (o : Option String) : String := o.getD "undefined"

/-- Models `String.prototype.includes`: substring containment. -/
def jsIncludes (s sub : String) : Bool := decide (sub.data <:+: s.data)

/-- Models `String.prototype.startsWith`. -/
def jsStartsWith (s pre : String) : Bool := decide (pre.data <+: s.data)

/-- Character class of the JavaScript regex atom `[a-zA-Z]`. -/
def esLetraAscii (c : Char) : Bool :=
  (97 ≤ c.toNat && c.toNat ≤ 122) || (65 ≤ c.toNat && c.toNat ≤ 90)

/-- Character class of the JavaScript regex atom `.` (without the `s` flag):
any character except the line terminators LF, CR, U+2028 and U+2029. -/
def esCaracterPunto (c : Char) : Bool :=
  !(c.toNat == 10 || c.toNat == 13 || c.toNat == 8232 || c.toNat == 8233)

/-- Models the regex `/^data:image\/([a-zA-Z]*);base64,(.*)$/` from
src/server.js:31.  A match requires the literal head `data:image/`, then a
maximal (possibly empty) run of ASCII letters as the subtype, then the literal
`;base64,`, then a payload free of line terminators running to the end of the
string.  Returns the two capture groups. -/
def matchDataUri (s : String) : Option (String × String) :=
  if s.data.take 11 = "data:image/".data then
    if ((s.data.drop 11).dropWhile esLetraAscii).take 8 = ";base64,".data then
      if (((s.data.drop 11).dropWhile esLetraAscii).drop 8).all esCaracterPunto then
        some (⟨(s.data.drop 11).takeWhile esLetraAscii⟩,
              ⟨((s.data.drop 11).dropWhile esLetraAscii).drop 8⟩)
      else none
    else none
  else none

/-- Image codec of src/server.js:31-38: parse the data URI and decode the
base64 payload.  Node's (lenient) `Buffer.from(payload, 'base64')` is an
external collaborator and is passed in as the function `b64`. -/
def decodeDataUri (b64 : String → List Nat) (s : String) : Option (String × List Nat) :=
  match matchDataUri s with
  | some (tipo, datos) => some (tipo, b64 datos)
  | none => none

/-- Public URL prefix issued by Supabase storage for the `imagenes-soporte`
bucket.  Models `supabase.storage.from('imagenes-soporte').getPublicUrl`, which
returns `<SUPABASE_URL>/storage/v1/object/public/<bucket>/<objectPath>`. -/
def basePublica : String :=
  "https://proyecto.supabase.co/storage/v1/object/public/imagenes-soporte/"

/-- Models `getPublicUrl(filePath).data.publicUrl`: the bucket's public prefix
followed by the object path, verbatim. -/
def getPublicUrl (filePath : String) : String := basePublica ++ filePath

/-- Contents of the Supabase storage bucket: object key to stored bytes. -/
abbrev Almacen := List (String × List Nat)

/-- Models `supabase.storage.upload(filePath, buffer, { upsert: false })`:
fails (returns `none`) instead of overwriting when the key already exists,
otherwise records the object. -/
def subirObjeto (st : Almacen) (ruta : String) (datos : List Nat) : Option Almacen :=
  match st.lookup ruta with
  | some _ => none
  | none => some ((ruta, datos) :: st)

/-- Result object of a successful upload in `saveImageToSupabase`. -/
structure ImagenSubida where
  filename : String
  url : String
  size : Nat
deriving DecidableEq

/-- Models `saveImageToSupabase` (src/server.js:24-69).  `ts` is the value of
`Date.now()` at the call.  Every failure path of the source (falsy input, input
without a comma, regex mismatch, storage upload error) returns `null`, here
`none`; the comma pre-check of line 26 precedes the regex exactly as in the
source. -/
def saveImageToSupabase (b64 : String → List Nat) (ts : Nat) (st : Almacen)
    (base64Data : Option String) (equipoId : String) (imageIndex : Nat) :
    Option (Almacen × ImagenSubida) :=
  if !(jsTruthy base64Data && jsIncludes (jsStr base64Data) ",") then none
  else
    match decodeDataUri b64 (jsStr base64Data) with
    | none => none
    | some (imageType, buffer) =>
      match subirObjeto st (equipoId ++ "/" ++ (toString ts ++ "-" ++ toString imageIndex ++ "." ++ imageType)) buffer with
      | none => none
      | some st2 =>
        some (st2,
          { filename := equipoId ++ "/" ++ (toString ts ++ "-" ++ toString imageIndex ++ "." ++ imageType),
            url := getPublicUrl (equipoId ++ "/" ++ (toString ts ++ "-" ++ toString imageIndex ++ "." ++ imageType)),
            size := buffer.length })

/-- An entry of a record's `imagenes` JSONB array, as the handlers read it.
Every field is optional because the column holds arbitrary JSON objects; the
transitional fields `url_anterior`/`corregida_el` are added by the repair
endpoint, and `base64` only ever occurs in request bodies. -/
structure Imagen where
  title : Option String := none
  filename : Option String := none
  url : Option String := none
  size : Option Nat := none
  fecha_subida : Option String := none
  base64 : Option String := none
  url_anterior : Option String := none
  corregida_el : Option String := none
deriving DecidableEq

/-- A row of the `computadores` table.  NOT NULL columns are plain strings,
nullable columns are optional; `fecha_revision` is kept as a numeric timestamp
because the handlers only compare it for ordering. -/
structure Computador where
  id : Nat := 0
  equipo_id : String := ""
  serial_number : String := ""
  placa_ml : Option String := none
  latitud : Option String := none
  longitud : Option String := none
  direccion_automatica : Option String := none
  ubicacion_manual : Option String := none
  responsable : String := ""
  cargo : String := ""
  estado : String := ""
  windows_update : String := ""
  imagenes : Option (List Imagen) := none
  observaciones : Option String := none
  problemas_detectados : Option String := none
  fecha_revision : Nat := 0
  fecha_actualizacion : Option String := none
  revisor : Option String := none
deriving DecidableEq

/-- Condition of src/server.js:306 deciding that an image must be repaired:
`imagen.filename && imagen.url && imagen.url.includes('/uploads/')`. -/
def condReescritura (img : Imagen) : Bool :=
  jsTruthy img.filename && jsTruthy img.url && jsIncludes (jsStr img.url) "/uploads/"

/-- Per-image body of the map at src/server.js:303-321: an image meeting
`condReescritura` is spread with a fresh public URL, its old url saved in
`url_anterior` and `corregida_el` stamped; every other image is returned
unchanged. -/
def fixImagen (ahora : String) (img : Imagen) : Imagen :=
  if condReescritura img then
    { img with url := some (getPublicUrl (jsStr img.filename)),
               url_anterior := img.url,
               corregida_el := some ahora }
  else img

/-- Per-record step of the POST /api/fix-imagenes loop (src/server.js:299-337):
returns the (possibly updated) record, whether it was dirty, and how many of
its images were scanned. -/
def fixComputador (ahora : String) (c : Computador) : Computador × Bool × Nat :=
  match c.imagenes with
  | none => (c, false, 0)
  | some imgs =>
    (if imgs.any condReescritura then { c with imagenes := some (imgs.map (fixImagen ahora)) } else c,
     imgs.any condReescritura,
     imgs.length)

/-- Models the POST /api/fix-imagenes handler (src/server.js:285-360) over the
whole table: new table contents, number of records updated (`actualizados`),
and total images scanned (`totalImagenes`).  Rows whose `imagenes` column is
null are excluded by the query's `.not('imagenes','is',null)` filter and pass
through unchanged. -/
def fixImagenes (ahora : String) : List Computador → List Computador × Nat × Nat
  | [] => ([], 0, 0)
  | c :: resto =>
    ((fixComputador ahora c).1 :: (fixImagenes ahora resto).1,
     (if (fixComputador ahora c).2.1 then 1 else 0) + (fixImagenes ahora resto).2.1,
     (fixComputador ahora c).2.2 + (fixImagenes ahora resto).2.2)

/-- Specification-side reading of claim C1: an image is rewritten exactly when
its url contains the deprecated local-serving marker `/uploads/`. -/
def imagenCorregidaSpec (ahora : String) (img : Imagen) : Imagen :=
  if jsIncludes (jsStr img.url) "/uploads/" then
    { img with url := some (getPublicUrl (jsStr img.filename)),
               url_anterior := img.url,
               corregida_el := some ahora }
  else img

/-- ASCII case folding applied by Postgres ILIKE: the letters A-Z are shifted
to their lowercase forms, every other character is unchanged. -/
def minuscula (c : Char) : Char :=
  if 65 ≤ c.toNat && c.toNat ≤ 90 then Char.ofNat (c.toNat + 32) else c

/-- A character that is not an SQL LIKE metacharacter. -/
def esLiteral (c : Char) : Bool := !(c == '%' || c == '_')

/-- A string free of the SQL LIKE wildcards `%` and `_`. -/
def sinComodines (s : String) : Bool := s.data.all esLiteral

/-- Models SQL LIKE pattern matching over case-folded character lists: `%`
matches any sequence, `_` any single character, anything else itself; the whole
string must be consumed. -/
def likeMatch : List Char → List Char → Bool
  | [], s => s.isEmpty
  | p :: ps, s =>
    if p = '%' then s.tails.any (fun t => likeMatch ps t)
    else if p = '_' then
      match s with
      | [] => false
      | _ :: s2 => likeMatch ps s2
    else
      match s with
      | [] => false
      | d :: s2 => (p == d) && likeMatch ps s2

/-- Models the Postgres ILIKE operator used via `query.ilike(column, pattern)`:
case-insensitive LIKE. -/
def pgIlike (valor patron : String) : Bool :=
  likeMatch (patron.data.map minuscula) (valor.data.map minuscula)

/-- Specification-side reading of claim C9's match: case-insensitive substring
containment. -/
def subcadenaInsensible (valor sub : String) : Bool :=
  decide ((sub.data.map minuscula) <:+: (valor.data.map minuscula))

/-- Row filter built by the GET /api/computadores handler
(src/server.js:463-469): each supplied (truthy) query parameter adds one
conjunct — exact equality for `estado`, ILIKE `%value%` for the rest. -/
def filtroLista (estado responsable equipo_id serial_number revisor : Option String)
    (c : Computador) : Bool :=
  (!jsTruthy estado || (c.estado == jsStr estado)) &&
  (!jsTruthy responsable || pgIlike c.responsable ("%" ++ jsStr responsable ++ "%")) &&
  (!jsTruthy equipo_id || pgIlike c.equipo_id ("%" ++ jsStr equipo_id ++ "%")) &&
  (!jsTruthy serial_number || pgIlike c.serial_number ("%" ++ jsStr serial_number ++ "%")) &&
  (!jsTruthy revisor || pgIlike (jsStr c.revisor) ("%" ++ jsStr revisor ++ "%"))

/-- Specification-side reading of claim C9's filter: conjunctive combination of
exact `estado` match and case-insensitive substring matches. -/
def cumpleFiltros (estado responsable equipo_id serial_number revisor : Option String)
    (c : Computador) : Bool :=
  (!jsTruthy estado || (c.estado == jsStr estado)) &&
  (!jsTruthy responsable || subcadenaInsensible c.responsable (jsStr responsable)) &&
  (!jsTruthy equipo_id || subcadenaInsensible c.equipo_id (jsStr equipo_id)) &&
  (!jsTruthy serial_number || subcadenaInsensible c.serial_number (jsStr serial_number)) &&
  (!jsTruthy revisor || subcadenaInsensible (jsStr c.revisor) (jsStr revisor))

/-- Insertion step of the model of `ORDER BY fecha_revision DESC`. -/
def insertarOrdenado (c : Computador) : List Computador → List Computador
  | [] => [c]
  | d :: resto =>
    if d.fecha_revision ≤ c.fecha_revision then c :: d :: resto
    else d :: insertarOrdenado c resto

/-- Models `query.order('fecha_revision', { ascending: false })`: a sort
placing the most recent revision first. -/
def ordenarDesc : List Computador → List Computador
  | [] => []
  | c :: resto => insertarOrdenado c (ordenarDesc resto)

/-- Per-image post-processing of the list handler (src/server.js:478-497):
Supabase-hosted images get `filename` replaced by the url, local images are
kept only when the referenced file exists, everything else passes through. -/
def procesarImagenLista (fsLocal : List String) (img : Imagen) : Option Imagen :=
  if jsTruthy img.url && jsIncludes (jsStr img.url) "supabase.co" then
    some { img with filename := img.url }
  else if jsTruthy img.filename && !(jsStartsWith (jsStr img.filename) "http") then
    (if (jsStr img.filename) ∈ fsLocal then some img else none)
  else some img

/-- Per-record post-processing of the list handler (src/server.js:476-505). -/
def procesarComputadorLista (fsLocal : List String) (c : Computador) : Computador :=
  match c.imagenes with
  | some imgs => { c with imagenes := some (imgs.filterMap (procesarImagenLista fsLocal)) }
  | none => c

/-- Models the GET /api/computadores handler (src/server.js:458-513): filter,
order by `fecha_revision` descending, then re-validate each record's images
against the local uploads directory `fsLocal`. -/
def obtenerComputadores (fsLocal : List String) (db : List Computador)
    (estado responsable equipo_id serial_number revisor : Option String) : List Computador :=
  (ordenarDesc (db.filter (filtroLista estado responsable equipo_id serial_number revisor))).map
    (procesarComputadorLista fsLocal)

/-- The `imagenes` field of a request body: absent, present but not an array,
or an array of image objects.  The handlers only process it when
`imagenes && Array.isArray(imagenes)` holds. -/
inductive CampoImagenes where
  | ausente
  | noArreglo
  | arreglo (imgs : List Imagen)
deriving DecidableEq

/-- Request body of POST/PUT /api/computadores as destructured by the
handlers; absent JSON properties are `none`. -/
structure Cuerpo where
  equipo_id : Option String := none
  serial_number : Option String := none
  placa_ml : Option String := none
  latitud : Option String := none
  longitud : Option String := none
  direccion_automatica : Option String := none
  ubicacion_manual : Option String := none
  responsable : Option String := none
  cargo : Option String := none
  estado : Option String := none
  windows_update : Option String := none
  observaciones : Option String := none
  problemas_detectados : Option String := none
  revisor : Option String := none
  imagenes : CampoImagenes := CampoImagenes.ausente
deriving DecidableEq

/-- HTTP responses of the record handlers, keeping the payload fields the
claims talk about.  `camposFaltantes` is the 400 body of the create guard,
`duplicado` the 400 of Postgres error 23505, `valorInvalido` the 400 of check
violation 23514, `creado` the 201 body, `actualizado`/`eliminado` the 200
bodies, `noEncontrado` the 404. -/
inductive Respuesta where
  | camposFaltantes (required : List String)
  | duplicado
  | valorInvalido
  | creado (id : Nat) (equipo_id serial_number : String) (imagenes_guardadas : Nat)
  | actualizado (imagenes_guardadas : Nat)
  | eliminado
  | noEncontrado
deriving DecidableEq

/-- Loop shared by the create and update handlers: walks the submitted image
array with its index, threading the storage bucket, collecting the image
descriptors that the per-image step managed to persist (a `none` step result is
dropped without aborting). -/
def procesarImagenes (paso : Almacen → Nat → Imagen → Almacen × Option Imagen) :
    Almacen → Nat → List Imagen → Almacen × List Imagen
  | st, _, [] => (st, [])
  | st, i, img :: resto =>
    ((procesarImagenes paso (paso st i img).1 (i + 1) resto).1,
     match (paso st i img).2 with
     | some x => x :: (procesarImagenes paso (paso st i img).1 (i + 1) resto).2
     | none => (procesarImagenes paso (paso st i img).1 (i + 1) resto).2)

/-- Per-image step of the create handler (src/server.js:537-553): only images
with truthy `base64` are uploaded (index `i + 1`, timestamp `tsFn i`); a failed
upload contributes nothing. -/
def pasoImagenCreate (b64 : String → List Nat) (tsFn : Nat → Nat) (ahora : String)
    (equipoId : String) (st : Almacen) (i : Nat) (img : Imagen) : Almacen × Option Imagen :=
  if jsTruthy img.base64 then
    match saveImageToSupabase b64 (tsFn i) st img.base64 equipoId (i + 1) with
    | some (st2, r) =>
      (st2, some { title := some (jsOr img.title ("Imagen " ++ toString (i + 1))),
                   filename := some r.filename,
                   url := some r.url,
                   size := some r.size,
                   fecha_subida := some ahora })
    | none => (st, none)
  else (st, none)

/-- The closed `estado` enum enforced by the table's check constraint. -/
def esEstadoValido (e : String) : Bool :=
  e == "operativo" || e == "mantenimiento" || e == "dañado"

/-- The closed `windows_update` enum enforced by the check constraint. -/
def esWindowsValido (w : String) : Bool := w == "si" || w == "no"

/-- Fresh serial primary key for an insert. -/
def siguienteId (db : List Computador) : Nat :=
  db.foldr (fun c m => max c.id m) 0 + 1

/-- Row inserted by the create handler (src/server.js:556-566). -/
def registroNuevo (cuerpo : Cuerpo) (guardadas : List Imagen) (idNuevo fecha : Nat) : Computador :=
  { id := idNuevo,
    equipo_id := jsStr cuerpo.equipo_id,
    serial_number := jsStr cuerpo.serial_number,
    placa_ml := cuerpo.placa_ml,
    latitud := cuerpo.latitud,
    longitud := cuerpo.longitud,
    direccion_automatica := cuerpo.direccion_automatica,
    ubicacion_manual := cuerpo.ubicacion_manual,
    responsable := jsStr cuerpo.responsable,
    cargo := jsStr cuerpo.cargo,
    estado := jsStr cuerpo.estado,
    windows_update := jsStr cuerpo.windows_update,
    imagenes := some guardadas,
    observaciones := cuerpo.observaciones,
    problemas_detectados := cuerpo.problemas_detectados,
    fecha_revision := fecha,
    fecha_actualizacion := none,
    revisor := cuerpo.revisor }

/-- Models the POST /api/computadores handler (src/server.js:515-583): required
field guard, sequential image upload, then the insert (whose unique and check
constraints surface as the 400 responses of `handleSupabaseError`).  Returns
the new table, the new bucket contents and the response.  `fecha` is the
`fecha_revision` default stamped by the database. -/
def crearComputador (b64 : String → List Nat) (tsFn : Nat → Nat) (ahora : String) (fecha : Nat)
    (db : List Computador) (st : Almacen) (cuerpo : Cuerpo) :
    List Computador × Almacen × Respuesta :=
  if !(jsTruthy cuerpo.equipo_id && jsTruthy cuerpo.serial_number && jsTruthy cuerpo.responsable &&
       jsTruthy cuerpo.cargo && jsTruthy cuerpo.estado && jsTruthy cuerpo.windows_update) then
    (db, st, Respuesta.camposFaltantes
      ["equipo_id", "serial_number", "responsable", "cargo", "estado", "windows_update"])
  else
    match cuerpo.imagenes with
    | CampoImagenes.arreglo imgs =>
      (if db.any (fun c => c.equipo_id == jsStr cuerpo.equipo_id) then
        (db, (procesarImagenes (pasoImagenCreate b64 tsFn ahora (jsStr cuerpo.equipo_id)) st 0 imgs).1,
         Respuesta.duplicado)
      else if !(esEstadoValido (jsStr cuerpo.estado) && esWindowsValido (jsStr cuerpo.windows_update)) then
        (db, (procesarImagenes (pasoImagenCreate b64 tsFn ahora (jsStr cuerpo.equipo_id)) st 0 imgs).1,
         Respuesta.valorInvalido)
      else
        (db ++ [registroNuevo cuerpo
                  (procesarImagenes (pasoImagenCreate b64 tsFn ahora (jsStr cuerpo.equipo_id)) st 0 imgs).2
                  (siguienteId db) fecha],
         (procesarImagenes (pasoImagenCreate b64 tsFn ahora (jsStr cuerpo.equipo_id)) st 0 imgs).1,
         Respuesta.creado (siguienteId db) (jsStr cuerpo.equipo_id) (jsStr cuerpo.serial_number)
           (procesarImagenes (pasoImagenCreate b64 tsFn ahora (jsStr cuerpo.equipo_id)) st 0 imgs).2.length))
    | _ =>
      (if db.any (fun c => c.equipo_id == jsStr cuerpo.equipo_id) then
        (db, st, Respuesta.duplicado)
      else if !(esEstadoValido (jsStr cuerpo.estado) && esWindowsValido (jsStr cuerpo.windows_update)) then
        (db, st, Respuesta.valorInvalido)
      else
        (db ++ [registroNuevo cuerpo [] (siguienteId db) fecha],
         st,
         Respuesta.creado (siguienteId db) (jsStr cuerpo.equipo_id) (jsStr cuerpo.serial_number) 0))

/-- Per-image step of the update handler (src/server.js:601-638): fresh base64
data is uploaded under the `-update` namespace; otherwise a truthy `filename`
is either passed through (http-prefixed) with its url set to that filename, or
kept only if the local file exists; anything else is dropped. -/
def pasoImagenUpdate (b64 : String → List Nat) (tsFn : Nat → Nat) (ahora : String)
    (equipoCuerpo : Option String) (fsLocal : List String)
    (st : Almacen) (i : Nat) (img : Imagen) : Almacen × Option Imagen :=
  if jsTruthy img.base64 && jsStartsWith (jsStr img.base64) "data:image" then
    match saveImageToSupabase b64 (tsFn i) st img.base64 (jsPlantilla equipoCuerpo ++ "-update") (i + 1) with
    | some (st2, r) =>
      (st2, some { title := some (jsOr img.title ("Imagen " ++ toString (i + 1))),
                   filename := some r.filename,
                   url := some r.url,
                   size := some r.size,
                   fecha_subida := some ahora })
    | none => (st, none)
  else if jsTruthy img.filename then
    if jsStartsWith (jsStr img.filename) "http" then
      (st, some { title := some (jsOr img.title ("Imagen " ++ toString (i + 1))),
                  filename := img.filename,
                  url := img.filename,
                  size := some (img.size.getD 0),
                  fecha_subida := some (jsOr img.fecha_subida ahora) })
    else if (jsStr img.filename) ∈ fsLocal then
      (st, some { title := some (jsOr img.title ("Imagen " ++ toString (i + 1))),
                  filename := img.filename,
                  url := img.url,
                  size := some (img.size.getD 0),
                  fecha_subida := some (jsOr img.fecha_subida ahora) })
    else (st, none)
  else (st, none)

/-- Column overwrite performed by the update statement (src/server.js:641-652):
properties present in the body replace the column (absent properties are
dropped from the JSON payload and leave the column untouched), `imagenes` is
always set to the processed array and `fecha_actualizacion` is stamped. -/
def aplicarCuerpo (c : Computador) (cuerpo : Cuerpo) (finales : List Imagen) (ahora : String) :
    Computador :=
  { c with
    equipo_id := cuerpo.equipo_id.getD c.equipo_id,
    serial_number := cuerpo.serial_number.getD c.serial_number,
    placa_ml := match cuerpo.placa_ml with | some v => some v | none => c.placa_ml,
    latitud := match cuerpo.latitud with | some v => some v | none => c.latitud,
    longitud := match cuerpo.longitud with | some v => some v | none => c.longitud,
    direccion_automatica := match cuerpo.direccion_automatica with
      | some v => some v | none => c.direccion_automatica,
    ubicacion_manual := match cuerpo.ubicacion_manual with
      | some v => some v | none => c.ubicacion_manual,
    responsable := cuerpo.responsable.getD c.responsable,
    cargo := cuerpo.cargo.getD c.cargo,
    estado := cuerpo.estado.getD c.estado,
    windows_update := cuerpo.windows_update.getD c.windows_update,
    imagenes := some finales,
    observaciones := match cuerpo.observaciones with | some v => some v | none => c.observaciones,
    problemas_detectados := match cuerpo.problemas_detectados with
      | some v => some v | none => c.problemas_detectados,
    fecha_actualizacion := some ahora,
    revisor := match cuerpo.revisor with | some v => some v | none => c.revisor }

/-- Check-constraint test applied by the database to the update payload: a
provided enum value outside its range raises error 23514. -/
def esViolacionRestriccion (cuerpo : Cuerpo) : Bool :=
  (match cuerpo.estado with | some v => !esEstadoValido v | none => false) ||
  (match cuerpo.windows_update with | some v => !esWindowsValido v | none => false)

/-- Models the PUT /api/computadores/:id handler (src/server.js:585-670):
images are processed first (uploads happen even before the row is located),
then the row update runs — no matching row yields the 404, a constraint or
uniqueness failure yields its 400, otherwise all columns are overwritten. -/
def actualizarComputador (b64 : String → List Nat) (tsFn : Nat → Nat) (ahora : String)
    (fsLocal : List String) (db : List Computador) (st : Almacen) (id : Nat) (cuerpo : Cuerpo) :
    List Computador × Almacen × Respuesta :=
  match cuerpo.imagenes with
  | CampoImagenes.arreglo imgs =>
    (match db.find? (fun c => c.id == id) with
     | none =>
       (db, (procesarImagenes (pasoImagenUpdate b64 tsFn ahora cuerpo.equipo_id fsLocal) st 0 imgs).1,
        Respuesta.noEncontrado)
     | some _ =>
       if esViolacionRestriccion cuerpo then
         (db, (procesarImagenes (pasoImagenUpdate b64 tsFn ahora cuerpo.equipo_id fsLocal) st 0 imgs).1,
          Respuesta.valorInvalido)
       else if db.any (fun d => !(d.id == id) &&
                 (match cuerpo.equipo_id with | some v => d.equipo_id == v | none => false)) then
         (db, (procesarImagenes (pasoImagenUpdate b64 tsFn ahora cuerpo.equipo_id fsLocal) st 0 imgs).1,
          Respuesta.duplicado)
       else
         (db.map (fun d => if d.id == id then
            aplicarCuerpo d cuerpo
              (procesarImagenes (pasoImagenUpdate b64 tsFn ahora cuerpo.equipo_id fsLocal) st 0 imgs).2
              ahora
          else d),
          (procesarImagenes (pasoImagenUpdate b64 tsFn ahora cuerpo.equipo_id fsLocal) st 0 imgs).1,
          Respuesta.actualizado
            (procesarImagenes (pasoImagenUpdate b64 tsFn ahora cuerpo.equipo_id fsLocal) st 0 imgs).2.length))
  | _ =>
    (match db.find? (fun c => c.id == id) with
     | none => (db, st, Respuesta.noEncontrado)
     | some _ =>
       if esViolacionRestriccion cuerpo then (db, st, Respuesta.valorInvalido)
       else if db.any (fun d => !(d.id == id) &&
                 (match cuerpo.equipo_id with | some v => d.equipo_id == v | none => false)) then
         (db, st, Respuesta.duplicado)
       else
         (db.map (fun d => if d.id == id then aplicarCuerpo d cuerpo [] ahora else d),
          st,
          Respuesta.actualizado 0))

/-- Models `deleteImageLocally` (src/server.js:114-133) over the uploads
directory `fsLocal`: an http-prefixed filename is a no-op success, an existing
local file is removed (success), a missing one reports failure. -/
def deleteImageLocally (fsLocal : List String) (filename : String) : List String × Bool :=
  if jsStartsWith filename "http" then (fsLocal, true)
  else if filename ∈ fsLocal then (fsLocal.erase filename, true)
  else (fsLocal, false)

/-- Filenames of a record's images that the delete handler would actually try
to remove from local storage: truthy and not http-prefixed. -/
def nombresLocales (imgs : List Imagen) : List String :=
  imgs.filterMap (fun img =>
    if jsTruthy img.filename && !(jsStartsWith (jsStr img.filename) "http") then
      some (jsStr img.filename)
    else none)

/-- Models the DELETE /api/computadores/:id handler (src/server.js:672-712):
the row's images are fetched, the row deleted (404 when absent), then each
image with a truthy filename goes through `deleteImageLocally`, whose boolean
result is ignored. -/
def eliminarComputador (db : List Computador) (fsLocal : List String) (id : Nat) :
    List Computador × List String × Respuesta :=
  match db.find? (fun c => c.id == id) with
  | none => (db, fsLocal, Respuesta.noEncontrado)
  | some c =>
    (db.filter (fun d => !(d.id == id)),
     (c.imagenes.getD []).foldl
       (fun fs img => if jsTruthy img.filename then (deleteImageLocally fs (jsStr img.filename)).1 else fs)
       fsLocal,
     Respuesta.eliminado)

/-- Concrete stand-in for Node's base64 decoder, used by the concrete examples
(the theorems are parametric in the decoder). -/
def b64Demo (s : String) : List Nat := s.data.map Char.toNat

/-- Concrete timestamp source for the examples. -/
def tsDemo (i : Nat) : Nat := 1700000000000 + i

-- Ejemplos concretos usados por testigos y contraejemplos.

/-- Image whose url still uses the deprecated local-serving shape. -/
def imgLocalRota : Imagen :=
  { filename := some "PC01/1111-1.png", url := some "/uploads/PC01/1111-1.png" }

/-- Image already pointing at durable storage. -/
def imgSupabase : Imagen :=
  { filename := some "PC-02/2222-1.png", url := some (getPublicUrl "PC-02/2222-1.png") }

/-- Record used by the C1 witness. -/
def ejemploC1 : List Computador :=
  [{ id := 1, equipo_id := "PC01", serial_number := "S1", responsable := "Ana", cargo := "Tec",
     estado := "operativo", windows_update := "si", fecha_revision := 10,
     imagenes := some [imgLocalRota, imgSupabase] }]

/-- Image stored under an equipment id named `uploads`, as `saveImageLocally`
would have produced for `equipoId = "uploads"`: its object key starts with
`uploads/`, so its resolved public URL itself contains `/uploads/`. -/
def imgClaveUploads : Imagen :=
  { filename := some "uploads/3333-1.png", url := some "/uploads/uploads/3333-1.png" }

/-- Record used by the C2 counterexample. -/
def ejemploC2 : List Computador :=
  [{ id := 2, equipo_id := "uploads", serial_number := "S2", responsable := "Luis", cargo := "Tec",
     estado := "operativo", windows_update := "no", fecha_revision := 11,
     imagenes := some [imgClaveUploads] }]

/-- Record used by the C2 witness. -/
def ejemploC2b : List Computador :=
  [{ id := 3, equipo_id := "PC03", serial_number := "S3", responsable := "Eva", cargo := "Tec",
     estado := "mantenimiento", windows_update := "si", fecha_revision := 12,
     imagenes := some [{ filename := some "PC03/4444-1.png", url := some "/uploads/PC03/4444-1.png" }] }]

/-- Remote-hosted image sent to the update endpoint whose url differs from its
filename. -/
def imgRemotaDistinta : Imagen :=
  { title := some "Foto", filename := some "http://fotos.example.com/a.png",
    url := some "http://otra.example.com/b.png", size := some 7,
    fecha_subida := some "2024-01-01" }

/-- Base record for the update examples. -/
def compBase : Computador :=
  { id := 7, equipo_id := "PC07", serial_number := "S7", responsable := "Mar", cargo := "Tec",
    estado := "operativo", windows_update := "si", fecha_revision := 20,
    imagenes := some [imgSupabase] }

/-- Update body carrying only the remote-hosted image. -/
def cuerpoRemoto : Cuerpo :=
  { equipo_id := some "PC07", serial_number := some "S7", responsable := some "Mar",
    cargo := some "Tec", estado := some "operativo", windows_update := some "si",
    imagenes := CampoImagenes.arreglo [imgRemotaDistinta] }

/-- Update body with the images field absent. -/
def cuerpoSinImagenes : Cuerpo :=
  { estado := some "mantenimiento" }

/-- Valid data-URI image used by the upload-conflict example. -/
def imgPngValida : Imagen := { base64 := some "data:image/png;base64,AA" }

/-- Create body whose only image is a valid data URI that will collide in
storage. -/
def cuerpoConflicto : Cuerpo :=
  { equipo_id := some "PC-11", serial_number := some "SN11", responsable := some "Iris",
    cargo := some "Tec", estado := some "operativo", windows_update := some "si",
    imagenes := CampoImagenes.arreglo [imgPngValida] }

/-- Bucket already holding exactly the key the example image would be stored
under, so its upload fails with a conflict instead of overwriting. -/
def almacenConflicto : Almacen := [("PC-11/1700000000000-1.png", [])]

/-- Image list of the specification's example create scenario. -/
def imagenesCrear : List Imagen := [{ base64 := some "data:image/png;base64,iVBOR" }]

/-- Create body matching the specification's example scenario. -/
def cuerpoCrear : Cuerpo :=
  { equipo_id := some "PC-01", serial_number := some "SN001", responsable := some "Ana",
    cargo := some "Tech", estado := some "operativo", windows_update := some "si",
    imagenes := CampoImagenes.arreglo imagenesCrear }

/-- Create body with every required field but `equipo_id`. -/
def cuerpoInvalido : Cuerpo :=
  { serial_number := some "SN1", responsable := some "Ana", cargo := some "Tec",
    estado := some "operativo", windows_update := some "si" }

/-- Record used by the delete example: one locally-hosted image and one
remote-hosted image. -/
def compEliminar : Computador :=
  { id := 5, equipo_id := "PC05", serial_number := "S5", responsable := "Leo", cargo := "Tec",
    estado := "operativo", windows_update := "si", fecha_revision := 15,
    imagenes := some [imgLocalRota, imgRemotaDistinta] }

/-- Record used by the list examples. -/
def compMaria : Computador :=
  { id := 9, equipo_id := "PC09", serial_number := "S9", responsable := "Maria", cargo := "Tec",
    estado := "operativo", windows_update := "si", fecha_revision := 3 }

/-- Second record used by the list witness. -/
def compAna : Computador :=
  { id := 10, equipo_id := "PC10", serial_number := "S10", responsable := "Ana", cargo := "Tec",
    estado := "mantenimiento", windows_update := "no", fecha_revision := 8 }

/-- Table used by the list witness. -/
def dbListado : List Computador := [compMaria, compAna]

-- Lemas auxiliares.

theorem jsStr_some (s : String) : jsStr (some s) = s := rfl

theorem fixImagen_bien_formada (ahora : String) (img : Imagen)
    (h1 : jsTruthy img.filename = true) (h2 : jsTruthy img.url = true) :
    fixImagen ahora img = imagenCorregidaSpec ahora img := by
  simp [fixImagen, imagenCorregidaSpec, condReescritura, h1, h2]

theorem condReescritura_bien_formada (img : Imagen)
    (h1 : jsTruthy img.filename = true) (h2 : jsTruthy img.url = true) :
    condReescritura img = jsIncludes (jsStr img.url) "/uploads/" := by
  simp [condReescritura, h1, h2]

theorem any_cond_bien_formada (imgs : List Imagen)
    (h : ∀ img ∈ imgs, jsTruthy img.filename = true ∧ jsTruthy img.url = true) :
    imgs.any condReescritura = imgs.any (fun img => jsIncludes (jsStr img.url) "/uploads/") := by
  induction imgs with
  | nil => rfl
  | cons a l ih =>
    simp only [List.any_cons,
      condReescritura_bien_formada a (h a (by simp)).1 (h a (by simp)).2,
      ih (fun img hm => h img (by simp [hm]))]

theorem fixComputador_bien_formado (ahora : String) (c : Computador)
    (h : ∀ img ∈ c.imagenes.getD [], jsTruthy img.filename = true ∧ jsTruthy img.url = true) :
    fixComputador ahora c =
      ({ c with imagenes := c.imagenes.map (fun l => l.map (imagenCorregidaSpec ahora)) },
       (c.imagenes.getD []).any (fun img => jsIncludes (jsStr img.url) "/uploads/"),
       (c.imagenes.getD []).length) := by
  obtain ⟨cid, ceq, csn, cpm, cla, clo, cda, cum, cre, cca, ces, cwi, cim, cob, cpd, cfr, cfa, crv⟩ := c
  cases cim with
  | none => rfl
  | some imgs =>
    have h' : ∀ img ∈ imgs, jsTruthy img.filename = true ∧ jsTruthy img.url = true := by
      simpa using h
    simp only [fixComputador, Option.getD_some, Option.map_some']
    have hmapa : imgs.map (fixImagen ahora) = imgs.map (imagenCorregidaSpec ahora) :=
      List.map_congr_left (fun img hm => fixImagen_bien_formada ahora img (h' img hm).1 (h' img hm).2)
    rw [hmapa, any_cond_bien_formada imgs h']
    by_cases hd : imgs.any (fun img => jsIncludes (jsStr img.url) "/uploads/") = true
    · simp [hd]
    · have hid : imgs.map (imagenCorregidaSpec ahora) = imgs := by
        have hcada : ∀ img ∈ imgs, imagenCorregidaSpec ahora img = img := by
          intro img hm
          have hno : jsIncludes (jsStr img.url) "/uploads/" = false := by
            simpa using (List.any_eq_false.mp (by simpa using hd)) img hm
          simp [imagenCorregidaSpec, hno]
        rw [List.map_congr_left hcada]
        simp
      simp [hd, hid]

/-- Claim C1: in the reconciliation operation, over well-formed image
descriptors (each carrying a truthy `filename` and a truthy `url`, as the data
model prescribes), exactly the images whose url contains the deprecated marker
`/uploads/` are rewritten — their url becomes the public URL resolved from the
filename key, the old url is kept in `url_anterior` and `corregida_el` is
stamped — all other images are returned unchanged, and the returned counters
are the number of records with some rewritten image and the total number of
images scanned. -/
theorem fix_imagenes_reescribe_exactamente (ahora : String) (s : List Computador)
    (h : ∀ c ∈ s, ∀ img ∈ c.imagenes.getD [], jsTruthy img.filename = true ∧ jsTruthy img.url = true) :
    fixImagenes ahora s =
      (s.map (fun c =>
         { c with imagenes := c.imagenes.map (fun l => l.map (imagenCorregidaSpec ahora)) }),
       s.countP (fun c => (c.imagenes.getD []).any (fun img => jsIncludes (jsStr img.url) "/uploads/")),
       (s.map (fun c => (c.imagenes.getD []).length)).sum) := by
  induction s with
  | nil => rfl
  | cons c resto ih =>
    have hc := fixComputador_bien_formado ahora c (h c (by simp))
    have hr := ih (fun d hd => h d (by simp [hd]))
    simp only [fixImagenes, hc, hr, List.map_cons, List.countP_cons, List.sum_cons]
    refine Prod.ext rfl (Prod.ext ?_ ?_) <;> simp <;> omega

theorem fix_imagenes_reescribe_exactamente_testigo :
    fixImagenes "T" ejemploC1 =
      (ejemploC1.map (fun c =>
         { c with imagenes := c.imagenes.map (fun l => l.map (imagenCorregidaSpec "T")) }),
       ejemploC1.countP (fun c =>
         (c.imagenes.getD []).any (fun img => jsIncludes (jsStr img.url) "/uploads/")),
       (ejemploC1.map (fun c => (c.imagenes.getD []).length)).sum) :=
  fix_imagenes_reescribe_exactamente "T" ejemploC1 (by decide)

theorem fixImagen_sin_cond (ahora : String) (img : Imagen) (h : condReescritura img = false) :
    fixImagen ahora img = img := by
  simp [fixImagen, h]

theorem condReescritura_tras_fix (ahora : String) (img : Imagen)
    (h : jsIncludes (getPublicUrl (jsStr img.filename)) "/uploads/" = false) :
    condReescritura (fixImagen ahora img) = false := by
  by_cases hc : condReescritura img = true
  · have hfix : fixImagen ahora img =
        { img with url := some (getPublicUrl (jsStr img.filename)),
                   url_anterior := img.url, corregida_el := some ahora } := by
      simp only [fixImagen]
      rw [hc]
      simp
    rw [hfix]
    simp [condReescritura, jsStr_some, h]
  · rw [fixImagen_sin_cond ahora img (by simpa using hc)]
    simpa using hc

theorem fixComputador_tras_fix (a1 a2 : String) (c : Computador)
    (h : ∀ img ∈ c.imagenes.getD [],
      jsIncludes (getPublicUrl (jsStr img.filename)) "/uploads/" = false) :
    fixComputador a2 (fixComputador a1 c).1 = ((fixComputador a1 c).1, false, (fixComputador a1 c).2.2) := by
  obtain ⟨cid, ceq, csn, cpm, cla, clo, cda, cum, cre, cca, ces, cwi, cim, cob, cpd, cfr, cfa, crv⟩ := c
  cases cim with
  | none => rfl
  | some imgs =>
    by_cases hd : imgs.any condReescritura = true
    · have hninguna : (imgs.map (fixImagen a1)).any condReescritura = false := by
        rw [List.any_map]
        apply List.any_eq_false.mpr
        intro img hm
        simp [condReescritura_tras_fix a1 img (h img (by simpa using hm))]
      simp [fixComputador, hd, hninguna]
    · have hb : imgs.any condReescritura = false := by simpa using hd
      simp [fixComputador, hb]

/-- Claim C2 (amended): the reconciliation is idempotent provided no image's
filename key resolves to a public URL that itself contains `/uploads/` (every
key the system generates under an equipment id not containing `uploads` is of
this kind): on the state produced by a first run, a second run marks no record
dirty, performs zero record updates and returns the state unchanged — in
particular every image URL is identical — with the same scan count. -/
theorem fix_imagenes_idempotente_sin_marcador (a1 a2 : String) (s : List Computador)
    (h : ∀ c ∈ s, ∀ img ∈ c.imagenes.getD [],
      jsIncludes (getPublicUrl (jsStr img.filename)) "/uploads/" = false) :
    fixImagenes a2 (fixImagenes a1 s).1 = ((fixImagenes a1 s).1, 0, (fixImagenes a1 s).2.2) := by
  induction s with
  | nil => rfl
  | cons c resto ih =>
    have hc := fixComputador_tras_fix a1 a2 c (h c (by simp))
    have hr := ih (fun d hd => h d (by simp [hd]))
    simp only [fixImagenes] at hr ⊢
    rw [hc, hr]
    simp

set_option maxRecDepth 8000 in
theorem fix_imagenes_idempotente_sin_marcador_testigo :
    fixImagenes "T2" (fixImagenes "T1" ejemploC2b).1
      = ((fixImagenes "T1" ejemploC2b).1, 0, (fixImagenes "T1" ejemploC2b).2.2) :=
  fix_imagenes_idempotente_sin_marcador "T1" "T2" ejemploC2b (by decide)

set_option maxRecDepth 8000 in
/-- Claim C2 fails as stated: on a record whose image key itself begins with
`uploads/` (produced by the local-save path for an equipment id `uploads`), the
first reconciliation run rewrites the image to a public URL that still contains
`/uploads/`, so the second run again marks the record dirty and performs one
record update instead of zero. -/
theorem fix_imagenes_no_idempotente_contraejemplo :
    (fixImagenes "T1" ejemploC2).2.1 = 1 ∧
    (fixImagenes "T2" (fixImagenes "T1" ejemploC2).1).2.1 = 1 := by
  decide

theorem takeWhile_append_literal {α : Type} (q : α → Bool) (l1 : List α) (c : α) (l2 : List α)
    (h : l1.all q = true) (hc : q c = false) :
    (l1 ++ c :: l2).takeWhile q = l1 ∧ (l1 ++ c :: l2).dropWhile q = c :: l2 := by
  induction l1 with
  | nil => simp [List.takeWhile_cons, List.dropWhile_cons, hc]
  | cons a l ih =>
    rw [List.all_cons, Bool.and_eq_true] at h
    have := ih h.2
    simp [List.takeWhile_cons, List.dropWhile_cons, h.1, this.1, this.2]

theorem matchDataUri_completo (t p : String)
    (ht : t.data.all esLetraAscii = true) (hp : p.data.all esCaracterPunto = true) :
    matchDataUri ("data:image/" ++ t ++ ";base64," ++ p) = some (t, p) := by
  have hdata : ("data:image/" ++ t ++ ";base64," ++ p).data
      = "data:image/".data ++ (t.data ++ (";base64,".data ++ p.data)) := by
    simp [String.data_append]
  have hsplit : ";base64,".data ++ p.data = ';' :: ("base64,".data ++ p.data) := rfl
  have hparte := takeWhile_append_literal esLetraAscii t.data ';' ("base64,".data ++ p.data)
    ht (by decide)
  have h11 : ("data:image/".data).length = 11 := rfl
  have h8 : (";base64,".data).length = 8 := rfl
  simp only [matchDataUri]
  rw [hdata, List.take_left' h11, if_pos rfl, List.drop_left' h11, hsplit,
    hparte.1, hparte.2, ← hsplit, List.take_left' h8, if_pos rfl, List.drop_left' h8,
    if_pos hp]

theorem all_takeWhile {α : Type} (q : α → Bool) (l : List α) : (l.takeWhile q).all q = true := by
  induction l with
  | nil => rfl
  | cons a l ih =>
    rw [List.takeWhile_cons]
    split
    · rename_i hqa
      simp [List.all_cons, hqa, ih]
    · rfl

theorem matchDataUri_correcto (s t p : String) (h : matchDataUri s = some (t, p)) :
    s = "data:image/" ++ t ++ ";base64," ++ p ∧
    t.data.all esLetraAscii = true ∧ p.data.all esCaracterPunto = true := by
  simp only [matchDataUri] at h
  split at h
  · split at h
    · split at h
      · rename_i h1 h2 h3
        rw [Option.some.injEq, Prod.mk.injEq] at h
        have htd : t.data = (s.data.drop 11).takeWhile esLetraAscii := by rw [← h.1]
        have hpd : p.data = ((s.data.drop 11).dropWhile esLetraAscii).drop 8 := by rw [← h.2]
        refine ⟨?_, ?_, ?_⟩
        · apply String.ext
          calc s.data = s.data.take 11 ++ s.data.drop 11 := (List.take_append_drop 11 s.data).symm
            _ = "data:image/".data ++ s.data.drop 11 := by rw [h1]
            _ = "data:image/".data
                ++ ((s.data.drop 11).takeWhile esLetraAscii
                    ++ (s.data.drop 11).dropWhile esLetraAscii) := by
                  rw [List.takeWhile_append_dropWhile]
            _ = "data:image/".data ++ (t.data ++ (s.data.drop 11).dropWhile esLetraAscii) := by
                  rw [htd]
            _ = "data:image/".data
                ++ (t.data ++ (((s.data.drop 11).dropWhile esLetraAscii).take 8
                    ++ ((s.data.drop 11).dropWhile esLetraAscii).drop 8)) := by
                  rw [List.take_append_drop]
            _ = "data:image/".data ++ (t.data ++ (";base64,".data ++ p.data)) := by
                  rw [h2, hpd]
            _ = ("data:image/" ++ t ++ ";base64," ++ p).data := by simp [String.data_append]
        · rw [htd]
          exact all_takeWhile esLetraAscii (s.data.drop 11)
        · rw [hpd]
          exact h3
      · exact Option.noConfusion h
    · exact Option.noConfusion h
  · exact Option.noConfusion h

/-- Claim C5 (amended): the codec accepts exactly the strings of shape
`data:image/<subtype>;base64,<payload>` in which the subtype is a (possibly
empty) run of ASCII letters and the payload contains no line terminator; on
such inputs it returns the declared subtype together with the bytes the base64
decoder produces from the payload, and on every other input it fails (the
image is dropped, the request is not aborted). -/
theorem codec_caracterizacion (b64 : String → List Nat) :
    (∀ t p : String, t.data.all esLetraAscii = true → p.data.all esCaracterPunto = true →
       decodeDataUri b64 ("data:image/" ++ t ++ ";base64," ++ p) = some (t, b64 p)) ∧
    (∀ s : String,
      (∀ t p : String, s = "data:image/" ++ t ++ ";base64," ++ p →
        ¬(t.data.all esLetraAscii = true ∧ p.data.all esCaracterPunto = true)) →
      decodeDataUri b64 s = none) := by
  constructor
  · intro t p ht hp
    simp [decodeDataUri, matchDataUri_completo t p ht hp]
  · intro s hno
    cases hm : matchDataUri s with
    | none => simp [decodeDataUri, hm]
    | some par =>
      obtain ⟨hs, hl, hp⟩ := matchDataUri_correcto s par.1 par.2 (by simpa using hm)
      exact absurd ⟨hl, hp⟩ (hno par.1 par.2 hs)

theorem codec_caracterizacion_testigo :
    decodeDataUri b64Demo ("data:image/" ++ "png" ++ ";base64," ++ "iVBOR")
      = some ("png", b64Demo "iVBOR") :=
  (codec_caracterizacion b64Demo).1 "png" "iVBOR" (by decide) (by decide)

/-- Claim C5 fails as stated: the input `data:image/svg+xml;base64,AA` is of
the shape `data:image/<subtype>;base64,<payload>` for the ordinary image
subtype `svg+xml`, yet the codec rejects it, because the source regex only
admits ASCII letters in the subtype. -/
theorem codec_subtipo_contraejemplo :
    ("data:image/svg+xml;base64,AA" = "data:image/" ++ "svg+xml" ++ ";base64," ++ "AA") ∧
    decodeDataUri b64Demo "data:image/svg+xml;base64,AA" = none := by
  constructor
  · rfl
  · decide

theorem pasoImagenUpdate_remoto (b64 : String → List Nat) (tsFn : Nat → Nat) (ahora : String)
    (equipoCuerpo : Option String) (fsLocal : List String) (st : Almacen) (i : Nat) (img : Imagen)
    (hb : (jsTruthy img.base64 && jsStartsWith (jsStr img.base64) "data:image") = false)
    (hf : jsTruthy img.filename = true)
    (hh : jsStartsWith (jsStr img.filename) "http" = true) :
    pasoImagenUpdate b64 tsFn ahora equipoCuerpo fsLocal st i img =
      (st, some { title := some (jsOr img.title ("Imagen " ++ toString (i + 1))),
                  filename := img.filename, url := img.filename,
                  size := some (img.size.getD 0),
                  fecha_subida := some (jsOr img.fecha_subida ahora) }) := by
  simp [pasoImagenUpdate, hb, hf, hh]

theorem procesarImagenes_append (paso : Almacen → Nat → Imagen → Almacen × Option Imagen)
    (st : Almacen) (i : Nat) (as bs : List Imagen) :
    procesarImagenes paso st i (as ++ bs) =
      ((procesarImagenes paso (procesarImagenes paso st i as).1 (i + as.length) bs).1,
       (procesarImagenes paso st i as).2
         ++ (procesarImagenes paso (procesarImagenes paso st i as).1 (i + as.length) bs).2) := by
  induction as generalizing st i with
  | nil => simp [procesarImagenes]
  | cons a l ih =>
    have hidx : i + 1 + l.length = i + (l.length + 1) := by omega
    simp only [List.cons_append, procesarImagenes, List.length_cons, List.append_eq]
    rw [ih, ← hidx]
    cases (paso st i a).2 with
    | some x => simp
    | none => simp

theorem procesarImagenes_cons_some (paso : Almacen → Nat → Imagen → Almacen × Option Imagen)
    (st : Almacen) (i : Nat) (img : Imagen) (resto : List Imagen) (x : Imagen)
    (h : paso st i img = (st, some x)) :
    procesarImagenes paso st i (img :: resto) =
      ((procesarImagenes paso st (i + 1) resto).1,
       x :: (procesarImagenes paso st (i + 1) resto).2) := by
  simp only [procesarImagenes, h]

/-- Claim C3 (amended): during update, an image of the replacement sequence
that carries no fresh embedded base64 data and whose truthy filename is
http-prefixed is passed through into the stored image sequence with its
filename preserved, its url set to that filename, its size kept (defaulting to
0 when absent) and its title and upload timestamp kept when supplied, else
defaulted; the storage bucket is untouched by that image.  The stored sequence
contains this descriptor between the outputs of the surrounding images. -/
theorem actualizar_remoto_transferencia (b64 : String → List Nat) (tsFn : Nat → Nat)
    (ahora : String) (fsLocal : List String) (db : List Computador) (st : Almacen) (id : Nat)
    (cuerpo : Cuerpo) (pre post : List Imagen) (img : Imagen) (c : Computador)
    (him : cuerpo.imagenes = CampoImagenes.arreglo (pre ++ img :: post))
    (hb : (jsTruthy img.base64 && jsStartsWith (jsStr img.base64) "data:image") = false)
    (hf : jsTruthy img.filename = true)
    (hh : jsStartsWith (jsStr img.filename) "http" = true)
    (hc : db.find? (fun d => d.id == id) = some c)
    (hv : esViolacionRestriccion cuerpo = false)
    (hdup : db.any (fun d => !(d.id == id) &&
      (match cuerpo.equipo_id with | some v => d.equipo_id == v | none => false)) = false) :
    ∃ g1 g2 st2,
      actualizarComputador b64 tsFn ahora fsLocal db st id cuerpo =
        (db.map (fun d => if d.id == id then
           aplicarCuerpo d cuerpo
             (g1 ++ { title := some (jsOr img.title ("Imagen " ++ toString (pre.length + 1))),
                      filename := img.filename, url := img.filename,
                      size := some (img.size.getD 0),
                      fecha_subida := some (jsOr img.fecha_subida ahora) } :: g2) ahora
         else d),
         st2,
         Respuesta.actualizado
           (g1 ++ { title := some (jsOr img.title ("Imagen " ++ toString (pre.length + 1))),
                    filename := img.filename, url := img.filename,
                    size := some (img.size.getD 0),
                    fecha_subida := some (jsOr img.fecha_subida ahora) } :: g2).length) := by
  have hpaso := pasoImagenUpdate_remoto b64 tsFn ahora cuerpo.equipo_id fsLocal
    (procesarImagenes (pasoImagenUpdate b64 tsFn ahora cuerpo.equipo_id fsLocal) st 0 pre).1
    pre.length img hb hf hh
  have hlista := procesarImagenes_append (pasoImagenUpdate b64 tsFn ahora cuerpo.equipo_id fsLocal)
    st 0 pre (img :: post)
  simp only [Nat.zero_add] at hlista
  rw [procesarImagenes_cons_some _ _ _ _ _ _ hpaso] at hlista
  refine ⟨(procesarImagenes (pasoImagenUpdate b64 tsFn ahora cuerpo.equipo_id fsLocal) st 0 pre).2,
    (procesarImagenes (pasoImagenUpdate b64 tsFn ahora cuerpo.equipo_id fsLocal)
      (procesarImagenes (pasoImagenUpdate b64 tsFn ahora cuerpo.equipo_id fsLocal) st 0 pre).1
      (pre.length + 1) post).2,
    (procesarImagenes (pasoImagenUpdate b64 tsFn ahora cuerpo.equipo_id fsLocal)
      (procesarImagenes (pasoImagenUpdate b64 tsFn ahora cuerpo.equipo_id fsLocal) st 0 pre).1
      (pre.length + 1) post).1, ?_⟩
  simp only [actualizarComputador, him, hc, hv, hdup, Bool.false_eq_true, if_false, hlista,
    Nat.zero_add]

/-- Claim C3 fails as stated: a remote-hosted image supplied to the update
endpoint with a url different from its filename is stored with its url
replaced by the filename, not the url the caller supplied. -/
theorem actualizar_remoto_url_contraejemplo :
    ((actualizarComputador b64Demo tsDemo "2025-01-01" [] [compBase] [] 7 cuerpoRemoto).1.head?.bind
        (fun d => d.imagenes)) =
      some [{ title := some "Foto", filename := some "http://fotos.example.com/a.png",
              url := some "http://fotos.example.com/a.png", size := some 7,
              fecha_subida := some "2024-01-01" }] ∧
    imgRemotaDistinta.url = some "http://otra.example.com/b.png" := by
  decide

theorem actualizar_remoto_transferencia_testigo :
    ∃ g1 g2 st2,
      actualizarComputador b64Demo tsDemo "2025-01-01" [] [compBase] [] 7 cuerpoRemoto =
        ([compBase].map (fun d => if d.id == 7 then
           aplicarCuerpo d cuerpoRemoto
             (g1 ++ { title := some (jsOr imgRemotaDistinta.title
                        ("Imagen " ++ toString (List.length (α := Imagen) [] + 1))),
                      filename := imgRemotaDistinta.filename, url := imgRemotaDistinta.filename,
                      size := some (imgRemotaDistinta.size.getD 0),
                      fecha_subida := some (jsOr imgRemotaDistinta.fecha_subida "2025-01-01") } :: g2)
             "2025-01-01"
         else d),
         st2,
         Respuesta.actualizado
           (g1 ++ { title := some (jsOr imgRemotaDistinta.title
                      ("Imagen " ++ toString (List.length (α := Imagen) [] + 1))),
                    filename := imgRemotaDistinta.filename, url := imgRemotaDistinta.filename,
                    size := some (imgRemotaDistinta.size.getD 0),
                    fecha_subida := some (jsOr imgRemotaDistinta.fecha_subida "2025-01-01") } :: g2).length) :=
  actualizar_remoto_transferencia b64Demo tsDemo "2025-01-01" [] [compBase] [] 7 cuerpoRemoto
    [] [] imgRemotaDistinta compBase rfl (by decide) (by decide) (by decide) (by decide)
    (by decide) (by decide)

/-- Claim C10: an update request whose body omits the images field (or supplies
a non-array value) replaces the record's stored image sequence with the empty
array — every previously stored image descriptor is removed — and reports zero
images saved; the storage bucket is untouched. -/
theorem actualizar_sin_imagenes_vacia (b64 : String → List Nat) (tsFn : Nat → Nat)
    (ahora : String) (fsLocal : List String) (db : List Computador) (st : Almacen) (id : Nat)
    (cuerpo : Cuerpo) (c : Computador)
    (him : cuerpo.imagenes = CampoImagenes.ausente ∨ cuerpo.imagenes = CampoImagenes.noArreglo)
    (hc : db.find? (fun d => d.id == id) = some c)
    (hv : esViolacionRestriccion cuerpo = false)
    (hdup : db.any (fun d => !(d.id == id) &&
      (match cuerpo.equipo_id with | some v => d.equipo_id == v | none => false)) = false) :
    actualizarComputador b64 tsFn ahora fsLocal db st id cuerpo =
      (db.map (fun d => if d.id == id then aplicarCuerpo d cuerpo [] ahora else d), st,
       Respuesta.actualizado 0) ∧
    ∀ d ∈ (actualizarComputador b64 tsFn ahora fsLocal db st id cuerpo).1,
      d.id = id → d.imagenes = some [] := by
  have hprin : actualizarComputador b64 tsFn ahora fsLocal db st id cuerpo =
      (db.map (fun d => if d.id == id then aplicarCuerpo d cuerpo [] ahora else d), st,
       Respuesta.actualizado 0) := by
    cases him with
    | inl ha => simp only [actualizarComputador, ha, hc, hv, hdup, Bool.false_eq_true, if_false]
    | inr ha => simp only [actualizarComputador, ha, hc, hv, hdup, Bool.false_eq_true, if_false]
  refine ⟨hprin, ?_⟩
  rw [hprin]
  intro d hd hid
  simp only [List.mem_map] at hd
  obtain ⟨d0, _, hd0⟩ := hd
  by_cases hbeq : d0.id == id
  · rw [← hd0, if_pos hbeq]
    simp [aplicarCuerpo]
  · rw [← hd0, if_neg hbeq] at hid ⊢
    exact absurd (by simp [hid]) hbeq

theorem actualizar_sin_imagenes_vacia_testigo :
    actualizarComputador b64Demo tsDemo "2025-02-02" [] [compBase] [] 7 cuerpoSinImagenes =
      ([compBase].map (fun d => if d.id == 7 then aplicarCuerpo d cuerpoSinImagenes [] "2025-02-02" else d),
       [], Respuesta.actualizado 0) ∧
    ∀ d ∈ (actualizarComputador b64Demo tsDemo "2025-02-02" [] [compBase] [] 7 cuerpoSinImagenes).1,
      d.id = 7 → d.imagenes = some [] :=
  actualizar_sin_imagenes_vacia b64Demo tsDemo "2025-02-02" [] [compBase] [] 7 cuerpoSinImagenes
    compBase (Or.inl rfl) (by decide) (by decide) (by decide)

theorem subirObjeto_preserva (st st2 : Almacen) (ruta : String) (datos : List Nat)
    (h : subirObjeto st ruta datos = some st2) (k : String)
    (hk : (st.lookup k).isSome = true) : st2.lookup k = st.lookup k := by
  unfold subirObjeto at h
  cases hl : st.lookup ruta with
  | some v => rw [hl] at h; exact Option.noConfusion h
  | none =>
    rw [hl] at h
    rw [Option.some.injEq] at h
    subst h
    by_cases hkr : k == ruta
    · have : k = ruta := by simpa using hkr
      rw [this, hl] at hk
      exact absurd hk (by simp)
    · simp only [List.lookup_cons]
      simp [hkr]

theorem saveImageToSupabase_algunos (b64 : String → List Nat) (ts : Nat) (st : Almacen)
    (b : Option String) (eqid : String) (idx : Nat) (st2 : Almacen) (r : ImagenSubida)
    (h : saveImageToSupabase b64 ts st b eqid idx = some (st2, r)) :
    ∃ tipo datos,
      matchDataUri (jsStr b) = some (tipo, datos) ∧
      r.filename = eqid ++ "/" ++ (toString ts ++ "-" ++ toString idx ++ "." ++ tipo) ∧
      subirObjeto st (eqid ++ "/" ++ (toString ts ++ "-" ++ toString idx ++ "." ++ tipo))
        (b64 datos) = some st2 := by
  unfold saveImageToSupabase at h
  split at h
  · exact Option.noConfusion h
  · unfold decodeDataUri at h
    cases hm : matchDataUri (jsStr b) with
    | none => rw [hm] at h; exact Option.noConfusion h
    | some par =>
      obtain ⟨tipo, datos⟩ := par
      simp only [hm] at h
      cases hsub : subirObjeto st (eqid ++ "/" ++ (toString ts ++ "-" ++ toString idx ++ "." ++ tipo)) (b64 datos) with
      | none =>
        simp only [hsub] at h
        exact Option.noConfusion h
      | some st3 =>
        simp only [hsub, Option.some.injEq, Prod.mk.injEq] at h
        refine ⟨tipo, datos, rfl, by rw [← h.2], ?_⟩
        rw [h.1] at hsub
        exact hsub

theorem pasoImagenCreate_algunos (b64 : String → List Nat) (tsFn : Nat → Nat) (ahora : String)
    (eqid : String) (st : Almacen) (i : Nat) (img : Imagen) (st2 : Almacen) (y : Imagen)
    (h : pasoImagenCreate b64 tsFn ahora eqid st i img = (st2, some y)) :
    ∃ r, saveImageToSupabase b64 (tsFn i) st img.base64 eqid (i + 1) = some (st2, r) ∧
      y = { title := some (jsOr img.title ("Imagen " ++ toString (i + 1))),
            filename := some r.filename, url := some r.url, size := some r.size,
            fecha_subida := some ahora } := by
  unfold pasoImagenCreate at h
  split at h
  · cases hs : saveImageToSupabase b64 (tsFn i) st img.base64 eqid (i + 1) with
    | none =>
      simp only [hs, Prod.mk.injEq] at h
      exact absurd h.2 (by simp)
    | some pr =>
      obtain ⟨st3, r⟩ := pr
      simp only [hs, Prod.mk.injEq, Option.some.injEq] at h
      refine ⟨r, ?_, h.2.symm⟩
      rw [h.1]
  · rw [Prod.mk.injEq] at h
    exact absurd h.2 (by simp)

theorem pasoImagenCreate_preserva (b64 : String → List Nat) (tsFn : Nat → Nat) (ahora : String)
    (eqid : String) (st : Almacen) (i : Nat) (img : Imagen) (k : String)
    (hk : (st.lookup k).isSome = true) :
    ((pasoImagenCreate b64 tsFn ahora eqid st i img).1).lookup k = st.lookup k := by
  unfold pasoImagenCreate
  split
  · cases hs : saveImageToSupabase b64 (tsFn i) st img.base64 eqid (i + 1) with
    | none => simp [hs]
    | some pr =>
      obtain ⟨st3, r⟩ := pr
      simp only [hs]
      obtain ⟨tipo, datos, hm, hf, hsub⟩ :=
        saveImageToSupabase_algunos b64 (tsFn i) st img.base64 eqid (i + 1) st3 r hs
      exact subirObjeto_preserva st st3 _ _ hsub k hk
  · rfl

theorem procesarImagenes_crear_preserva (b64 : String → List Nat) (tsFn : Nat → Nat)
    (ahora : String) (eqid : String) :
    ∀ (imgs : List Imagen) (st : Almacen) (i : Nat) (k : String),
      (st.lookup k).isSome = true →
      ((procesarImagenes (pasoImagenCreate b64 tsFn ahora eqid) st i imgs).1).lookup k
        = st.lookup k := by
  intro imgs
  induction imgs with
  | nil => intro st i k hk; rfl
  | cons a l ih =>
    intro st i k hk
    have h1 := pasoImagenCreate_preserva b64 tsFn ahora eqid st i a k hk
    have h2 := ih (pasoImagenCreate b64 tsFn ahora eqid st i a).1 (i + 1) k (by rw [h1]; exact hk)
    simp only [procesarImagenes]
    rw [h2, h1]

theorem procesarImagenes_crear_nombres (b64 : String → List Nat) (tsFn : Nat → Nat)
    (ahora : String) (eqid : String) :
    ∀ (imgs : List Imagen) (st : Almacen) (i : Nat),
      ∀ x ∈ (procesarImagenes (pasoImagenCreate b64 tsFn ahora eqid) st i imgs).2,
        ∃ j, ∃ hj : j < imgs.length, ∃ tipo datos,
          matchDataUri (jsStr (imgs.get ⟨j, hj⟩).base64) = some (tipo, datos) ∧
          x.filename = some (eqid ++ "/" ++ (toString (tsFn (i + j)) ++ "-"
            ++ toString (i + j + 1) ++ "." ++ tipo)) := by
  intro imgs
  induction imgs with
  | nil => intro st i x hx; simp [procesarImagenes] at hx
  | cons a l ih =>
    intro st i x hx
    simp only [procesarImagenes] at hx
    cases hp : pasoImagenCreate b64 tsFn ahora eqid st i a with
    | mk st3 o =>
      rw [hp] at hx
      cases o with
      | none =>
        simp only at hx
        obtain ⟨j, hj, tipo, datos, hm, hf⟩ := ih st3 (i + 1) x hx
        refine ⟨j + 1, by simpa using Nat.succ_lt_succ hj, tipo, datos, ?_, ?_⟩
        · rw [List.get_cons_succ]
          exact hm
        · have : i + 1 + j = i + (j + 1) := by omega
          rw [this] at hf
          exact hf
      | some y =>
        simp only at hx
        rcases List.mem_cons.mp hx with hxy | hxl
        · obtain ⟨r, hs, hy⟩ :=
            pasoImagenCreate_algunos b64 tsFn ahora eqid st i a st3 y hp
          obtain ⟨tipo, datos, hm, hf, hsub⟩ :=
            saveImageToSupabase_algunos b64 (tsFn i) st a.base64 eqid (i + 1) st3 r hs
          refine ⟨0, by simp, tipo, datos, ?_, ?_⟩
          · simpa using hm
          · rw [hxy, hy]
            simp only [Nat.add_zero]
            rw [hf]
        · obtain ⟨j, hj, tipo, datos, hm, hf⟩ := ih st3 (i + 1) x hxl
          refine ⟨j + 1, by simpa using Nat.succ_lt_succ hj, tipo, datos, ?_, ?_⟩
          · rw [List.get_cons_succ]
            exact hm
          · have : i + 1 + j = i + (j + 1) := by omega
            rw [this] at hf
            exact hf

theorem procesarImagenes_longitud (paso : Almacen → Nat → Imagen → Almacen × Option Imagen) :
    ∀ (imgs : List Imagen) (st : Almacen) (i : Nat),
      (procesarImagenes paso st i imgs).2.length ≤ imgs.length := by
  intro imgs
  induction imgs with
  | nil => intro st i; simp [procesarImagenes]
  | cons a l ih =>
    intro st i
    simp only [procesarImagenes, List.length_cons]
    cases (paso st i a).2 with
    | some x =>
      simp only [List.length_cons]
      exact Nat.succ_le_succ (ih _ (i + 1))
    | none => exact Nat.le_succ_of_le (ih _ (i + 1))

theorem procesarImagenes_cons_none (paso : Almacen → Nat → Imagen → Almacen × Option Imagen)
    (st : Almacen) (i : Nat) (img : Imagen) (resto : List Imagen)
    (h : paso st i img = (st, none)) :
    procesarImagenes paso st i (img :: resto) = procesarImagenes paso st (i + 1) resto := by
  simp only [procesarImagenes, h]

/-- Claim C4: creating a record whose image list contains an image whose
processing step persists nothing — its decode fails, or its upload fails at
the bucket state actually reached after the images before it (for instance a
key conflict) — still succeeds with a 201: the failed image is dropped, the
record is inserted with exactly the successfully persisted images, and the
reported `imagenes_guardadas` equals their number — strictly fewer than the
submitted images, and zero when the failed image is the only one. -/
theorem crear_tolera_imagen_fallida (b64 : String → List Nat) (tsFn : Nat → Nat) (ahora : String)
    (fecha : Nat) (db : List Computador) (st : Almacen) (cuerpo : Cuerpo)
    (pre post : List Imagen) (bad : Imagen)
    (hval : (jsTruthy cuerpo.equipo_id && jsTruthy cuerpo.serial_number &&
             jsTruthy cuerpo.responsable && jsTruthy cuerpo.cargo &&
             jsTruthy cuerpo.estado && jsTruthy cuerpo.windows_update) = true)
    (hdup : db.any (fun c => c.equipo_id == jsStr cuerpo.equipo_id) = false)
    (hen : (esEstadoValido (jsStr cuerpo.estado) && esWindowsValido (jsStr cuerpo.windows_update)) = true)
    (him : cuerpo.imagenes = CampoImagenes.arreglo (pre ++ bad :: post))
    (hbad : pasoImagenCreate b64 tsFn ahora (jsStr cuerpo.equipo_id)
        (procesarImagenes (pasoImagenCreate b64 tsFn ahora (jsStr cuerpo.equipo_id)) st 0 pre).1
        pre.length bad
      = ((procesarImagenes (pasoImagenCreate b64 tsFn ahora (jsStr cuerpo.equipo_id)) st 0 pre).1,
         none)) :
    ∃ guardadas st2,
      crearComputador b64 tsFn ahora fecha db st cuerpo =
        (db ++ [registroNuevo cuerpo guardadas (siguienteId db) fecha], st2,
         Respuesta.creado (siguienteId db) (jsStr cuerpo.equipo_id) (jsStr cuerpo.serial_number)
           guardadas.length) ∧
      guardadas.length < (pre ++ bad :: post).length ∧
      (pre = [] → post = [] → guardadas = []) := by
  refine ⟨(procesarImagenes (pasoImagenCreate b64 tsFn ahora (jsStr cuerpo.equipo_id)) st 0
            (pre ++ bad :: post)).2,
         (procesarImagenes (pasoImagenCreate b64 tsFn ahora (jsStr cuerpo.equipo_id)) st 0
            (pre ++ bad :: post)).1, ?_, ?_, ?_⟩
  · simp [crearComputador, hval, him, hdup, hen]
  · have hsplit := procesarImagenes_append
      (pasoImagenCreate b64 tsFn ahora (jsStr cuerpo.equipo_id)) st 0 pre (bad :: post)
    simp only [Nat.zero_add] at hsplit
    rw [procesarImagenes_cons_none _ _ _ _ _ hbad] at hsplit
    rw [hsplit]
    have l1 := procesarImagenes_longitud
      (pasoImagenCreate b64 tsFn ahora (jsStr cuerpo.equipo_id)) pre st 0
    have l2 := procesarImagenes_longitud
      (pasoImagenCreate b64 tsFn ahora (jsStr cuerpo.equipo_id)) post
      (procesarImagenes (pasoImagenCreate b64 tsFn ahora (jsStr cuerpo.equipo_id)) st 0 pre).1
      (pre.length + 1)
    simp only [List.length_append, List.length_cons]
    omega
  · intro hpre hpost
    subst hpre
    subst hpost
    have hbad0 : pasoImagenCreate b64 tsFn ahora (jsStr cuerpo.equipo_id) st 0 bad
        = (st, none) := hbad
    have := procesarImagenes_cons_none
      (pasoImagenCreate b64 tsFn ahora (jsStr cuerpo.equipo_id)) st 0 bad [] hbad0
    simp only [List.nil_append]
    rw [this]
    rfl

theorem crear_tolera_imagen_fallida_testigo :
    ∃ guardadas st2,
      crearComputador b64Demo tsDemo "T" 1 [] almacenConflicto cuerpoConflicto =
        ([] ++ [registroNuevo cuerpoConflicto guardadas (siguienteId []) 1], st2,
         Respuesta.creado (siguienteId []) (jsStr cuerpoConflicto.equipo_id)
           (jsStr cuerpoConflicto.serial_number) guardadas.length) ∧
      guardadas.length < (([] : List Imagen) ++ imgPngValida :: []).length ∧
      (([] : List Imagen) = [] → ([] : List Imagen) = [] → guardadas = []) :=
  crear_tolera_imagen_fallida b64Demo tsDemo "T" 1 [] almacenConflicto cuerpoConflicto
    [] [] imgPngValida (by decide) (by decide) (by decide) rfl (by decide)

/-- Claim C8: every image persisted during create gets a storage key of the
shape `<equipmentId>/<timestamp>-<sequenceIndex>.<subtype>` where the
equipment id is the record's, the timestamp is the clock value at that image's
upload, the sequence index is the image's 1-based position in the submitted
array and the subtype is the one its data URI declares; and the upload never
overwrites an existing key (every previously stored object keeps its value). -/
theorem crear_claves_almacen (b64 : String → List Nat) (tsFn : Nat → Nat) (ahora : String)
    (fecha : Nat) (db : List Computador) (st : Almacen) (cuerpo : Cuerpo) (imgs : List Imagen)
    (hval : (jsTruthy cuerpo.equipo_id && jsTruthy cuerpo.serial_number &&
             jsTruthy cuerpo.responsable && jsTruthy cuerpo.cargo &&
             jsTruthy cuerpo.estado && jsTruthy cuerpo.windows_update) = true)
    (hdup : db.any (fun c => c.equipo_id == jsStr cuerpo.equipo_id) = false)
    (hen : (esEstadoValido (jsStr cuerpo.estado) && esWindowsValido (jsStr cuerpo.windows_update)) = true)
    (him : cuerpo.imagenes = CampoImagenes.arreglo imgs) :
    ∃ guardadas st2,
      crearComputador b64 tsFn ahora fecha db st cuerpo =
        (db ++ [registroNuevo cuerpo guardadas (siguienteId db) fecha], st2,
         Respuesta.creado (siguienteId db) (jsStr cuerpo.equipo_id) (jsStr cuerpo.serial_number)
           guardadas.length) ∧
      (∀ x ∈ guardadas, ∃ j, ∃ hj : j < imgs.length, ∃ tipo datos,
        matchDataUri (jsStr (imgs.get ⟨j, hj⟩).base64) = some (tipo, datos) ∧
        x.filename = some (jsStr cuerpo.equipo_id ++ "/" ++ (toString (tsFn j) ++ "-"
          ++ toString (j + 1) ++ "." ++ tipo))) ∧
      (∀ k, ((st.lookup k).isSome = true) → st2.lookup k = st.lookup k) := by
  refine ⟨(procesarImagenes (pasoImagenCreate b64 tsFn ahora (jsStr cuerpo.equipo_id)) st 0 imgs).2,
         (procesarImagenes (pasoImagenCreate b64 tsFn ahora (jsStr cuerpo.equipo_id)) st 0 imgs).1,
         ?_, ?_, ?_⟩
  · simp [crearComputador, hval, him, hdup, hen]
  · intro x hx
    have hcar := procesarImagenes_crear_nombres b64 tsFn ahora (jsStr cuerpo.equipo_id)
      imgs st 0 x hx
    simpa using hcar
  · intro k hk
    exact procesarImagenes_crear_preserva b64 tsFn ahora (jsStr cuerpo.equipo_id) imgs st 0 k hk

theorem crear_claves_almacen_testigo :
    ∃ guardadas st2,
      crearComputador b64Demo tsDemo "T" 1 [] [] cuerpoCrear =
        ([] ++ [registroNuevo cuerpoCrear guardadas (siguienteId []) 1], st2,
         Respuesta.creado (siguienteId []) (jsStr cuerpoCrear.equipo_id)
           (jsStr cuerpoCrear.serial_number) guardadas.length) ∧
      (∀ x ∈ guardadas, ∃ j, ∃ hj : j < imagenesCrear.length, ∃ tipo datos,
        matchDataUri (jsStr (imagenesCrear.get ⟨j, hj⟩).base64) = some (tipo, datos) ∧
        x.filename = some (jsStr cuerpoCrear.equipo_id ++ "/" ++ (toString (tsDemo j) ++ "-"
          ++ toString (j + 1) ++ "." ++ tipo))) ∧
      (∀ k, ((List.lookup k ([] : Almacen)).isSome = true) →
        st2.lookup k = List.lookup k ([] : Almacen)) :=
  crear_claves_almacen b64Demo tsDemo "T" 1 [] [] cuerpoCrear imagenesCrear
    (by decide) (by decide) (by decide) rfl

/-- Claim C6 (amended): create fails with the 400 validation response whenever
any of the six required fields is absent (or empty), the response carrying the
fixed list of all six required field names (not only the missing ones); in
that case the table and the storage bucket are returned unchanged — no image
is uploaded and no record inserted. -/
theorem crear_validacion_campos (b64 : String → List Nat) (tsFn : Nat → Nat) (ahora : String)
    (fecha : Nat) (db : List Computador) (st : Almacen) (cuerpo : Cuerpo)
    (h : (jsTruthy cuerpo.equipo_id && jsTruthy cuerpo.serial_number &&
          jsTruthy cuerpo.responsable && jsTruthy cuerpo.cargo &&
          jsTruthy cuerpo.estado && jsTruthy cuerpo.windows_update) = false) :
    crearComputador b64 tsFn ahora fecha db st cuerpo =
      (db, st, Respuesta.camposFaltantes
        ["equipo_id", "serial_number", "responsable", "cargo", "estado", "windows_update"]) := by
  simp [crearComputador, h]

theorem crear_validacion_campos_testigo :
    crearComputador b64Demo tsDemo "T" 1 [] [] cuerpoInvalido =
      ([], [], Respuesta.camposFaltantes
        ["equipo_id", "serial_number", "responsable", "cargo", "estado", "windows_update"]) :=
  crear_validacion_campos b64Demo tsDemo "T" 1 [] [] cuerpoInvalido (by decide)

/-- Claim C6 fails as stated on the field list: a request missing only
`equipo_id` receives a `required` list that also names `serial_number`, a
field the request did supply, so the response lists all required fields, not
the missing ones. -/
theorem crear_validacion_lista_contraejemplo :
    crearComputador b64Demo tsDemo "U" 2 [] [] cuerpoInvalido =
      ([], [], Respuesta.camposFaltantes
        ["equipo_id", "serial_number", "responsable", "cargo", "estado", "windows_update"]) ∧
    jsTruthy cuerpoInvalido.serial_number = true ∧
    jsTruthy cuerpoInvalido.equipo_id = false := by
  decide

theorem borradoLocales_filtra :
    ∀ (imgs : List Imagen) (fs : List String), fs.Nodup →
      imgs.foldl (fun fs img =>
          if jsTruthy img.filename then (deleteImageLocally fs (jsStr img.filename)).1 else fs) fs
        = fs.filter (fun f => !(nombresLocales imgs).contains f) := by
  intro imgs
  induction imgs with
  | nil =>
    intro fs hnd
    simp [nombresLocales]
  | cons a l ih =>
    intro fs hnd
    by_cases ht : jsTruthy a.filename = true
    · by_cases hh : jsStartsWith (jsStr a.filename) "http" = true
      · have hnom : nombresLocales (a :: l) = nombresLocales l := by
          simp [nombresLocales, List.filterMap_cons, ht, hh]
        have hpaso : (deleteImageLocally fs (jsStr a.filename)).1 = fs := by
          unfold deleteImageLocally
          rw [if_pos hh]
        rw [List.foldl_cons]
        simp only [ht, if_true, hpaso, hnom]
        exact ih fs hnd
      · have hnom : nombresLocales (a :: l) = jsStr a.filename :: nombresLocales l := by
          simp [nombresLocales, List.filterMap_cons, ht, hh]
        have hpaso : (deleteImageLocally fs (jsStr a.filename)).1
            = fs.erase (jsStr a.filename) := by
          unfold deleteImageLocally
          rw [if_neg (by simp [hh])]
          by_cases hm : (jsStr a.filename) ∈ fs
          · rw [if_pos hm]
          · rw [if_neg hm, List.erase_of_not_mem hm]
        rw [List.foldl_cons]
        simp only [ht, if_true, hpaso, hnom]
        rw [ih (fs.erase (jsStr a.filename)) (hnd.erase _)]
        rw [hnd.erase_eq_filter (jsStr a.filename), List.filter_filter]
        apply List.filter_congr
        intro x hx
        by_cases hxn : x = jsStr a.filename
        · subst hxn
          simp [List.contains_cons]
        · simp [List.contains_cons, hxn, Ne.symm hxn]
    · have ht' : jsTruthy a.filename = false := by simpa using ht
      have hnom : nombresLocales (a :: l) = nombresLocales l := by
        simp [nombresLocales, List.filterMap_cons, ht']
      rw [List.foldl_cons]
      simp only [ht', Bool.false_eq_true, if_false, hnom]
      exact ih fs hnd

/-- Claim C7: delete responds 404 when no row matches the id, leaving table
and local storage untouched; on success it removes the matched row, removes
from local fallback storage exactly the record's locally-hosted image files
(an http-prefixed filename is a no-op success, so remote-hosted images are
never deleted, and a missing local file merely reports failure), and responds
with the success message regardless of those per-file outcomes. -/
theorem eliminar_comportamiento (db : List Computador) (fsLocal : List String) (id : Nat)
    (hnd : fsLocal.Nodup) :
    (db.find? (fun c => c.id == id) = none →
      eliminarComputador db fsLocal id = (db, fsLocal, Respuesta.noEncontrado)) ∧
    (∀ c, db.find? (fun c => c.id == id) = some c →
      eliminarComputador db fsLocal id =
        (db.filter (fun d => !(d.id == id)),
         fsLocal.filter (fun f => !(nombresLocales (c.imagenes.getD [])).contains f),
         Respuesta.eliminado)) := by
  constructor
  · intro h
    simp [eliminarComputador, h]
  · intro c h
    simp [eliminarComputador, h, borradoLocales_filtra (c.imagenes.getD []) fsLocal hnd]

theorem eliminar_comportamiento_testigo :
    (List.find? (fun c => c.id == 5) [compEliminar] = none →
      eliminarComputador [compEliminar] ["PC01/1111-1.png", "zzz.png"] 5
        = ([compEliminar], ["PC01/1111-1.png", "zzz.png"], Respuesta.noEncontrado)) ∧
    (∀ c, List.find? (fun c => c.id == 5) [compEliminar] = some c →
      eliminarComputador [compEliminar] ["PC01/1111-1.png", "zzz.png"] 5 =
        ([compEliminar].filter (fun d => !(d.id == 5)),
         ["PC01/1111-1.png", "zzz.png"].filter
           (fun f => !(nombresLocales (c.imagenes.getD [])).contains f),
         Respuesta.eliminado)) :=
  eliminar_comportamiento [compEliminar] ["PC01/1111-1.png", "zzz.png"] 5 (by decide)

theorem tails_contiene_vacia {α : Type} (s : List α) :
    s.tails.any (fun t => t.isEmpty) = true := by
  induction s with
  | nil => rfl
  | cons a l ih =>
    rw [List.tails_cons]
    simp [List.any_cons, ih]

theorem likeMatch_literal (p : List Char) (hp : p.all esLiteral = true) :
    ∀ s : List Char, (likeMatch (p ++ ['%']) s = true ↔ p <+: s) := by
  induction p with
  | nil =>
    intro s
    constructor
    · intro _
      exact List.nil_prefix
    · intro _
      show likeMatch ('%' :: []) s = true
      have hdef : likeMatch ('%' :: []) s = s.tails.any (fun t => likeMatch [] t) := rfl
      rw [hdef]
      have hvacia : ∀ t : List Char, likeMatch [] t = t.isEmpty := fun t => rfl
      simp only [hvacia]
      exact tails_contiene_vacia s
  | cons c p ih =>
    rw [List.all_cons, Bool.and_eq_true] at hp
    have hc1 : ¬ c = '%' := by
      intro heq
      subst heq
      simp [esLiteral] at hp
    have hc2 : ¬ c = '_' := by
      intro heq
      subst heq
      simp [esLiteral] at hp
    intro s
    cases s with
    | nil =>
      simp only [List.cons_append, likeMatch, if_neg hc1, if_neg hc2]
      constructor
      · intro h
        exact absurd h (by simp)
      · intro h
        exact absurd h (by simp)
    | cons d s2 =>
      simp only [List.cons_append, likeMatch, if_neg hc1, if_neg hc2, List.append_eq]
      rw [Bool.and_eq_true, beq_iff_eq, ih hp.2 s2]
      exact (List.cons_prefix_cons).symm

theorem likeMatch_comodin (q : List Char) (s : List Char) :
    (likeMatch ('%' :: q) s = true ↔ ∃ t, t <:+ s ∧ likeMatch q t = true) := by
  have hdef : likeMatch ('%' :: q) s = s.tails.any (fun t => likeMatch q t) := rfl
  rw [hdef, List.any_eq_true]
  constructor
  · rintro ⟨t, ht, hl⟩
    exact ⟨t, (List.mem_tails t s).mp ht, hl⟩
  · rintro ⟨t, ht, hl⟩
    exact ⟨t, (List.mem_tails t s).mpr ht, hl⟩

theorem likeMatch_subcadena (p s : List Char) (hp : p.all esLiteral = true) :
    (likeMatch ('%' :: (p ++ ['%'])) s = true ↔ p <:+: s) := by
  rw [likeMatch_comodin]
  constructor
  · rintro ⟨t, hts, hmt⟩
    exact List.infix_iff_prefix_suffix.mpr ⟨t, (likeMatch_literal p hp t).mp hmt, hts⟩
  · intro h
    obtain ⟨t, hpt, hts⟩ := List.infix_iff_prefix_suffix.mp h
    exact ⟨t, hts, (likeMatch_literal p hp t).mpr hpt⟩

theorem minuscula_pct : minuscula '%' = '%' := by decide

theorem minuscula_literal (c : Char) (h : esLiteral c = true) : esLiteral (minuscula c) = true := by
  unfold minuscula
  split
  · rename_i hcond
    rw [Bool.and_eq_true] at hcond
    have h1 : 65 ≤ c.toNat := by simpa using hcond.1
    have h2 : c.toNat ≤ 90 := by simpa using hcond.2
    have htn : (Char.ofNat (c.toNat + 32)).toNat = c.toNat + 32 := by
      have hv : (c.toNat + 32).isValidChar := Or.inl (by omega)
      rw [Char.ofNat, dif_pos hv]
      rfl
    have hne1 : ¬ Char.ofNat (c.toNat + 32) = '%' := by
      intro heq
      have h37 := congrArg Char.toNat heq
      rw [htn] at h37
      have : Char.toNat '%' = 37 := rfl
      rw [this] at h37
      omega
    have hne2 : ¬ Char.ofNat (c.toNat + 32) = '_' := by
      intro heq
      have h95 := congrArg Char.toNat heq
      rw [htn] at h95
      have : Char.toNat '_' = 95 := rfl
      rw [this] at h95
      omega
    simp [esLiteral, hne1, hne2]
  · exact h

theorem patron_ilike (f : String) :
    ("%" ++ f ++ "%").data.map minuscula = '%' :: (f.data.map minuscula ++ ['%']) := by
  have h1 : "%".data = ['%'] := rfl
  have h2 : ("%" ++ f ++ "%").data = '%' :: (f.data ++ ['%']) := by
    rw [String.data_append, String.data_append, h1]
    simp
  rw [h2]
  simp [minuscula_pct]

theorem pgIlike_subcadena (valor f : String) (hf : sinComodines f = true) :
    pgIlike valor ("%" ++ f ++ "%") = subcadenaInsensible valor f := by
  unfold sinComodines at hf
  have hlow : (f.data.map minuscula).all esLiteral = true := by
    rw [List.all_eq_true] at hf ⊢
    intro x hx
    obtain ⟨c, hc, rfl⟩ := List.mem_map.mp hx
    exact minuscula_literal c (hf c hc)
  rw [Bool.eq_iff_iff]
  unfold pgIlike subcadenaInsensible
  rw [patron_ilike, likeMatch_subcadena _ _ hlow]
  simp

theorem insertarOrdenado_perm (c : Computador) (l : List Computador) :
    (insertarOrdenado c l).Perm (c :: l) := by
  induction l with
  | nil => exact List.Perm.refl _
  | cons d resto ih =>
    unfold insertarOrdenado
    split
    · exact List.Perm.refl _
    · exact (ih.cons d).trans (List.Perm.swap c d resto)

theorem ordenarDesc_perm (l : List Computador) : (ordenarDesc l).Perm l := by
  induction l with
  | nil => exact List.Perm.refl _
  | cons c resto ih =>
    exact (insertarOrdenado_perm c (ordenarDesc resto)).trans (ih.cons c)

theorem insertarOrdenado_sorted (c : Computador) (l : List Computador)
    (hl : l.Pairwise (fun a b => b.fecha_revision ≤ a.fecha_revision)) :
    (insertarOrdenado c l).Pairwise (fun a b => b.fecha_revision ≤ a.fecha_revision) := by
  induction l with
  | nil => simp [insertarOrdenado]
  | cons d resto ih =>
    rw [List.pairwise_cons] at hl
    unfold insertarOrdenado
    split
    · rename_i hdc
      rw [List.pairwise_cons]
      refine ⟨?_, List.pairwise_cons.mpr hl⟩
      intro x hx
      rcases List.mem_cons.mp hx with rfl | hxr
      · exact hdc
      · exact le_trans (hl.1 x hxr) hdc
    · rename_i hdc
      rw [List.pairwise_cons]
      refine ⟨?_, ih hl.2⟩
      intro x hx
      have hx2 : x ∈ c :: resto := (insertarOrdenado_perm c resto).mem_iff.mp hx
      rcases List.mem_cons.mp hx2 with rfl | hxr
      · exact le_of_not_le hdc
      · exact hl.1 x hxr

theorem ordenarDesc_sorted (l : List Computador) :
    (ordenarDesc l).Pairwise (fun a b => b.fecha_revision ≤ a.fecha_revision) := by
  induction l with
  | nil => simp [ordenarDesc]
  | cons c resto ih => exact insertarOrdenado_sorted c _ ih

/-- Claim C9 (amended): provided the supplied filter values contain no SQL
LIKE wildcard (`%` or `_`), the list operation returns exactly the records
satisfying every supplied filter conjunctively — exact match on `estado`,
case-insensitive substring match on `responsable`, `equipo_id`,
`serial_number` and `revisor` — ordered by `fecha_revision` descending, each
returned record then passed through the image revalidation step.  A filter
value containing a wildcard is instead interpreted as a LIKE pattern. -/
theorem listar_filtros_conjuntivos (fsLocal : List String) (db : List Computador)
    (estado responsable equipo_id serial_number revisor : Option String)
    (h1 : sinComodines (jsStr responsable) = true)
    (h2 : sinComodines (jsStr equipo_id) = true)
    (h3 : sinComodines (jsStr serial_number) = true)
    (h4 : sinComodines (jsStr revisor) = true) :
    ∃ l : List Computador,
      obtenerComputadores fsLocal db estado responsable equipo_id serial_number revisor
        = l.map (procesarComputadorLista fsLocal) ∧
      l.Perm (db.filter (cumpleFiltros estado responsable equipo_id serial_number revisor)) ∧
      l.Pairwise (fun a b => b.fecha_revision ≤ a.fecha_revision) := by
  refine ⟨ordenarDesc (db.filter (filtroLista estado responsable equipo_id serial_number revisor)),
    rfl, ?_, ordenarDesc_sorted _⟩
  have hfiltros : db.filter (filtroLista estado responsable equipo_id serial_number revisor)
      = db.filter (cumpleFiltros estado responsable equipo_id serial_number revisor) := by
    apply List.filter_congr
    intro c hc
    unfold filtroLista cumpleFiltros
    rw [pgIlike_subcadena c.responsable _ h1, pgIlike_subcadena c.equipo_id _ h2,
        pgIlike_subcadena c.serial_number _ h3, pgIlike_subcadena (jsStr c.revisor) _ h4]
  rw [← hfiltros]
  exact ordenarDesc_perm _

theorem listar_filtros_conjuntivos_testigo :
    ∃ l : List Computador,
      obtenerComputadores [] dbListado (some "mantenimiento") (some "ana") none none none
        = l.map (procesarComputadorLista []) ∧
      l.Perm (dbListado.filter (cumpleFiltros (some "mantenimiento") (some "ana") none none none)) ∧
      l.Pairwise (fun a b => b.fecha_revision ≤ a.fecha_revision) :=
  listar_filtros_conjuntivos [] dbListado (some "mantenimiento") (some "ana") none none none
    (by decide) (by decide) (by decide) (by decide)

/-- Claim C9 fails as stated: a `responsable` filter value containing the SQL
wildcard `%` is not applied as a substring match — the record `Maria` is
returned for the filter value `M%a` although `m%a` is not a substring of
`maria`, because the value is spliced into an ILIKE pattern. -/
theorem listar_comodin_contraejemplo :
    (obtenerComputadores [] [compMaria] none (some "M%a") none none none).length = 1 ∧
    subcadenaInsensible compMaria.responsable "M%a" = false := by
  decide
